import Mathlib

/-
Verification of the signal-power-ratio estimation core of the
ENPH353-GWaves repository against its specification.

The numerical formulas (mean squared power, dB ratio, propagated error,
normalized cutoff) are embedded from `src/scripts/analysis/SNR_analysis.py`
(`calculate_snr`, `calculate_average_power_ratio`, `high_pass_filter`).
Sample amplitudes are modelled as rationals; the transcendental parts
(log10, ln, sqrt) live in ℝ.

The spec's `PowerRatioEstimator` component (the `estimate` and `separate`
operations with explicit error kinds `LengthMismatchError`,
`DegenerateSignalError`, `InsufficientDataError`, `InvalidFilterSpecError`,
and the explicit `+infinity` dB value) is not present under src/; those
operations are modelled from the spec, reusing the source formulas for
every numerical quantity.
-/

namespace GWaves

/-- Mean of the squared samples of a sequence: `np.mean(x ** 2)` as used in
`calculate_snr` and `calculate_average_power_ratio` of
`src/scripts/analysis/SNR_analysis.py`. -/
def mean_sq (l : List ℚ) : ℚ :=
  (l.map fun x => x ^ 2).sum / (l.length : ℚ)

/-- Embedding of `calculate_snr` from `src/scripts/analysis/SNR_analysis.py`:
returns `(snr, snr_error)` where `snr = 10 * log10(signal_power / noise_power)`
and `snr_error` is the first-order propagated error with the source's fixed
`error_percentage = 0.005`. -/
noncomputable def calculate_snr (signal noise : List ℚ) : ℝ × ℝ :=
  let signal_power := mean_sq signal
  let noise_power := mean_sq noise
  let snr : ℝ := 10 * Real.logb 10 ((signal_power : ℝ) / (noise_power : ℝ))
  let error_percentage : ℚ := 5 / 1000
  let sigma_signal := signal_power * error_percentage
  let sigma_noise := noise_power * error_percentage
  let snr_error : ℝ := (10 / Real.log 10) *
    Real.sqrt (((sigma_signal / signal_power : ℚ) : ℝ) ^ 2 +
      ((sigma_noise / noise_power : ℚ) : ℝ) ^ 2)
  (snr, snr_error)

/-- Embedding of `calculate_average_power_ratio` from
`src/scripts/analysis/SNR_analysis.py`: `noise_power / signal_power`. -/
def calculate_average_power_ratio (signal noise : List ℚ) : ℚ :=
  mean_sq noise / mean_sq signal

/-- Error kinds of the spec's `estimate` operation. -/
inductive EstimateError where
  | lengthMismatch
  | degenerateSignal
  deriving DecidableEq

/-- Result record of a successful estimation call, from the spec's data model.
`ratio_db` is an extended real so that the `+infinity` (perfect signal) case
is represented explicitly, as the spec requires. -/
structure PowerRatioResult where
  signal_power : ℚ
  noise_power : ℚ
  ratio : ℚ
  ratio_db : EReal
  ratio_db_error : ℝ

/-- Payload of a successful `estimate` call. Every numerical formula is the
one in `calculate_snr` / `calculate_average_power_ratio` of the source, with
the error fraction `e` a parameter instead of the source's fixed `0.005`. -/
noncomputable def estimateOk (signal noise : List ℚ) (e : ℚ) : PowerRatioResult :=
  let signal_power := mean_sq signal
  let noise_power := mean_sq noise
  let sigma_signal_power := signal_power * e
  let sigma_noise_power := noise_power * e
  { signal_power := signal_power
    noise_power := noise_power
    ratio := noise_power / signal_power
    ratio_db :=
      if noise_power = 0 then ⊤
      else ((10 * Real.logb 10 ((signal_power : ℝ) / (noise_power : ℝ)) : ℝ) : EReal)
    ratio_db_error :=
      (10 / Real.log 10) *
        Real.sqrt (((sigma_signal_power / signal_power : ℚ) : ℝ) ^ 2 +
          ((sigma_noise_power / noise_power : ℚ) : ℝ) ^ 2) }

/-- Modelled from the spec: the `estimate(signal, noise) -> PowerRatioResult`
operation of `PowerRatioEstimator`, which is not present under src/ (only the
script functions are). Sequences must be equal length (`LengthMismatchError`
otherwise); zero signal power is `DegenerateSignalError`; otherwise the
result is built from the source formulas via `estimateOk`. -/
noncomputable def estimate (signal noise : List ℚ) (e : ℚ) :
    Except EstimateError PowerRatioResult :=
  if signal.length ≠ noise.length then .error .lengthMismatch
  else if mean_sq signal = 0 then .error .degenerateSignal
  else .ok (estimateOk signal noise e)

/-- Filter specification from the spec's data model. -/
structure FilterSpec where
  cutoff_frequency : ℚ
  sampling_rate : ℚ
  order : ℕ

/-- Error kinds of the spec's `separate` operation. -/
inductive SeparateError where
  | insufficientData
  | invalidFilterSpec
  deriving DecidableEq

/-- Dot product of a coefficient list against a most-recent-first window. -/
def dotRecent (c : List ℚ) (recent : List ℚ) : ℚ :=
  ((c.zip recent).map fun p => p.1 * p.2).sum

/-- One-direction IIR difference equation
`y[n] = (sum b[k]*x[n-k] - sum a[k+1]*y[n-1-k]) / a[0]`, recursing over the
input with most-recent-first windows of inputs and outputs. -/
def lfilterGo (b : List ℚ) (a0 : ℚ) (atail : List ℚ) :
    List ℚ → List ℚ → List ℚ → List ℚ
  | [], _, _ => []
  | x :: rest, xrec, yrec =>
    let xrec' := x :: xrec
    let y := (dotRecent b xrec' - dotRecent atail yrec) / a0
    y :: lfilterGo b a0 atail rest xrec' (y :: yrec)

/-- Linear IIR filter with numerator coefficients `b` and denominator
coefficients `a`, applied in one direction. -/
def lfilter (b a : List ℚ) (x : List ℚ) : List ℚ :=
  lfilterGo b (a.headD 1) a.tail x [] []

/-- Modelled from the spec: zero-phase forward-backward filter application
(`scipy.signal.filtfilt` in the source is an external library call): filter
forward, reverse, filter again, reverse back. -/
def filtfilt (b a : List ℚ) (x : List ℚ) : List ℚ :=
  (lfilter b a (lfilter b a x).reverse).reverse

/-- Modelled from the spec: the `separate(signal, spec) -> noise_estimate`
operation of `PowerRatioEstimator`, which is not present under src/. The
length guard `3 * (2*order + 1)` and the error kinds come from the spec; the
normalized cutoff `cutoff / (0.5 * sampling_rate)` comes from the source's
`high_pass_filter`; the Butterworth coefficient design is an external
library concern (out of scope per the spec) and is abstracted as the
`design` argument mapping (order, normalized cutoff) to `(b, a)`. -/
def separate (design : ℕ → ℚ → List ℚ × List ℚ) (spec : FilterSpec)
    (signal : List ℚ) : Except SeparateError (List ℚ) :=
  if signal.length < 3 * (2 * spec.order + 1) then .error .insufficientData
  else if ¬ (0 < spec.cutoff_frequency ∧
      spec.cutoff_frequency < spec.sampling_rate / 2) then
    .error .invalidFilterSpec
  else
    let nyquist := (1 / 2 : ℚ) * spec.sampling_rate
    let normal_cutoff := spec.cutoff_frequency / nyquist
    let ba := design spec.order normal_cutoff
    .ok (filtfilt ba.1 ba.2 signal)

/-! Helper lemmas shared by several claims. -/

theorem mean_sq_nonneg (l : List ℚ) : 0 ≤ mean_sq l := by
  refine div_nonneg (List.sum_nonneg ?_) (Nat.cast_nonneg _)
  intro x hx
  simp only [List.mem_map] at hx
  obtain ⟨y, _, rfl⟩ := hx
  exact sq_nonneg y

theorem mean_sq_smul (c : ℚ) (l : List ℚ) :
    mean_sq (l.map fun x => c * x) = c ^ 2 * mean_sq l := by
  unfold mean_sq
  rw [List.map_map, List.length_map]
  have h : ((fun x => x ^ 2) ∘ fun x => c * x) = fun x => c ^ 2 * x ^ 2 := by
    funext x; simp [mul_pow]
  rw [h, List.sum_map_mul_left, mul_div_assoc]

theorem estimateOk_signal_power (signal noise : List ℚ) (e : ℚ) :
    (estimateOk signal noise e).signal_power = mean_sq signal := rfl

theorem estimateOk_noise_power (signal noise : List ℚ) (e : ℚ) :
    (estimateOk signal noise e).noise_power = mean_sq noise := rfl

theorem estimateOk_ratio (signal noise : List ℚ) (e : ℚ) :
    (estimateOk signal noise e).ratio = mean_sq noise / mean_sq signal := rfl

theorem estimateOk_ratio_db (signal noise : List ℚ) (e : ℚ) :
    (estimateOk signal noise e).ratio_db =
      if mean_sq noise = 0 then (⊤ : EReal)
      else ((10 * Real.logb 10
        ((mean_sq signal : ℝ) / (mean_sq noise : ℝ)) : ℝ) : EReal) := rfl

theorem estimateOk_ratio_db_error (signal noise : List ℚ) (e : ℚ) :
    (estimateOk signal noise e).ratio_db_error =
      (10 / Real.log 10) *
        Real.sqrt (((mean_sq signal * e / mean_sq signal : ℚ) : ℝ) ^ 2 +
          ((mean_sq noise * e / mean_sq noise : ℚ) : ℝ) ^ 2) := rfl

theorem estimate_eq_ok {signal noise : List ℚ} (e : ℚ)
    (h1 : signal.length = noise.length) (h2 : mean_sq signal ≠ 0) :
    estimate signal noise e = .ok (estimateOk signal noise e) := by
  unfold estimate
  rw [if_neg (fun hc => hc h1), if_neg h2]

theorem lfilterGo_length (b : List ℚ) (a0 : ℚ) (atail : List ℚ)
    (xs : List ℚ) : ∀ xrec yrec,
    (lfilterGo b a0 atail xs xrec yrec).length = xs.length := by
  induction xs with
  | nil => intro xrec yrec; rfl
  | cons x rest ih =>
    intro xrec yrec
    simp only [lfilterGo, List.length_cons]
    rw [ih]

theorem lfilter_length (b a x : List ℚ) : (lfilter b a x).length = x.length :=
  lfilterGo_length b (a.headD 1) a.tail x [] []

theorem filtfilt_length (b a x : List ℚ) : (filtfilt b a x).length = x.length := by
  unfold filtfilt
  rw [List.length_reverse, lfilter_length, List.length_reverse, lfilter_length]

/-- Claim C1: for every pair of equal-length sequences (with the estimation
defined, i.e. nonzero signal and noise power so that no error branch and no
infinite dB branch is taken), `estimate` computes `signal_power` as the mean
of the squared signal samples, `noise_power` as the mean of the squared noise
samples, `ratio = noise_power / signal_power`, and
`ratio_db = 10 * log10(signal_power / noise_power)`. -/
theorem claim_C1_estimate_formulas (signal noise : List ℚ) (e : ℚ)
    (h1 : signal.length = noise.length) (h2 : mean_sq signal ≠ 0)
    (h3 : mean_sq noise ≠ 0) :
    estimate signal noise e = .ok (estimateOk signal noise e) ∧
    (estimateOk signal noise e).signal_power = mean_sq signal ∧
    (estimateOk signal noise e).noise_power = mean_sq noise ∧
    (estimateOk signal noise e).ratio = mean_sq noise / mean_sq signal ∧
    (estimateOk signal noise e).ratio_db =
      ((10 * Real.logb 10
        ((mean_sq signal : ℝ) / (mean_sq noise : ℝ)) : ℝ) : EReal) := by
  refine ⟨estimate_eq_ok e h1 h2, rfl, rfl, rfl, ?_⟩
  rw [estimateOk_ratio_db, if_neg h3]

theorem claim_C1_witness :
    mean_sq [(1 : ℚ), 2] ≠ 0 ∧ mean_sq [(1 : ℚ), 1] ≠ 0 ∧
    estimate [(1 : ℚ), 2] [(1 : ℚ), 1] (1 / 200) =
      .ok (estimateOk [(1 : ℚ), 2] [(1 : ℚ), 1] (1 / 200)) :=
  ⟨by norm_num [mean_sq], by norm_num [mean_sq],
    (claim_C1_estimate_formulas [(1 : ℚ), 2] [(1 : ℚ), 1] (1 / 200)
      (by decide) (by norm_num [mean_sq]) (by norm_num [mean_sq])).1⟩

/-- Claim C2: with nonzero powers and a nonnegative relative error fraction
`e` applied to both power estimates, the computed `ratio_db_error` equals
`(10 / ln 10) * sqrt((sigma_signal_power/signal_power)^2 +
(sigma_noise_power/noise_power)^2)` with `sigma = power * e`, and this
simplifies to `(10 * sqrt 2 / ln 10) * e`, independent of the absolute power
values. -/
theorem claim_C2_ratio_db_error (signal noise : List ℚ) (e : ℚ)
    (h2 : mean_sq signal ≠ 0) (h3 : mean_sq noise ≠ 0) (he : 0 ≤ e) :
    (estimateOk signal noise e).ratio_db_error =
      (10 / Real.log 10) *
        Real.sqrt (((mean_sq signal * e / mean_sq signal : ℚ) : ℝ) ^ 2 +
          ((mean_sq noise * e / mean_sq noise : ℚ) : ℝ) ^ 2) ∧
    (estimateOk signal noise e).ratio_db_error =
      (10 * Real.sqrt 2 / Real.log 10) * (e : ℝ) := by
  refine ⟨rfl, ?_⟩
  rw [estimateOk_ratio_db_error, mul_div_cancel_left₀ e h2,
    mul_div_cancel_left₀ e h3]
  have hsum : ((e : ℚ) : ℝ) ^ 2 + ((e : ℚ) : ℝ) ^ 2 = 2 * ((e : ℚ) : ℝ) ^ 2 := by
    ring
  rw [hsum, Real.sqrt_mul (by norm_num), Real.sqrt_sq (by exact_mod_cast he)]
  ring

theorem claim_C2_witness :
    (0 : ℚ) ≤ 1 / 200 ∧
    (estimateOk [(1 : ℚ)] [(2 : ℚ)] (1 / 200)).ratio_db_error =
      (10 * Real.sqrt 2 / Real.log 10) * ((1 / 200 : ℚ) : ℝ) :=
  ⟨by norm_num,
    (claim_C2_ratio_db_error [(1 : ℚ)] [(2 : ℚ)] (1 / 200)
      (by norm_num [mean_sq]) (by norm_num [mean_sq]) (by norm_num)).2⟩

/-- Claim C4: on equal-length input with positive signal power and zero noise
power, `estimate` succeeds (no exception), with `ratio = 0` and
`ratio_db = +infinity`. -/
theorem claim_C4_zero_noise (signal noise : List ℚ) (e : ℚ)
    (h1 : signal.length = noise.length) (h2 : 0 < mean_sq signal)
    (h3 : mean_sq noise = 0) :
    estimate signal noise e = .ok (estimateOk signal noise e) ∧
    (estimateOk signal noise e).ratio = 0 ∧
    (estimateOk signal noise e).ratio_db = ⊤ := by
  refine ⟨estimate_eq_ok e h1 (ne_of_gt h2), ?_, ?_⟩
  · rw [estimateOk_ratio, h3, zero_div]
  · rw [estimateOk_ratio_db, if_pos h3]

theorem claim_C4_witness :
    mean_sq [(0 : ℚ)] = 0 ∧
    estimate [(1 : ℚ)] [(0 : ℚ)] (1 / 200) =
      .ok (estimateOk [(1 : ℚ)] [(0 : ℚ)] (1 / 200)) ∧
    (estimateOk [(1 : ℚ)] [(0 : ℚ)] (1 / 200)).ratio = 0 ∧
    (estimateOk [(1 : ℚ)] [(0 : ℚ)] (1 / 200)).ratio_db = ⊤ :=
  ⟨by norm_num [mean_sq],
    claim_C4_zero_noise [(1 : ℚ)] [(0 : ℚ)] (1 / 200)
      (by decide) (by norm_num [mean_sq]) (by norm_num [mean_sq])⟩

/-- Claim C5: on equal-length input whose signal power is zero, `estimate`
fails with `DegenerateSignalError` rather than returning a result. -/
theorem claim_C5_degenerate (signal noise : List ℚ) (e : ℚ)
    (h1 : signal.length = noise.length) (h2 : mean_sq signal = 0) :
    estimate signal noise e = .error .degenerateSignal := by
  unfold estimate
  rw [if_neg (fun hc => hc h1), if_pos h2]

theorem claim_C5_witness :
    mean_sq [(0 : ℚ)] = 0 ∧
    estimate [(0 : ℚ)] [(1 : ℚ)] (1 / 200) = .error .degenerateSignal :=
  ⟨by norm_num [mean_sq],
    claim_C5_degenerate [(0 : ℚ)] [(1 : ℚ)] (1 / 200) (by decide)
      (by norm_num [mean_sq])⟩

/-- Claim C6: on sequences whose lengths differ, `estimate` fails with
`LengthMismatchError` and computes no power ratio. -/
theorem claim_C6_length_mismatch (signal noise : List ℚ) (e : ℚ)
    (h : signal.length ≠ noise.length) :
    estimate signal noise e = .error .lengthMismatch := by
  unfold estimate
  rw [if_pos h]

theorem claim_C6_witness :
    estimate [(1 : ℚ)] ([] : List ℚ) (1 / 200) = .error .lengthMismatch :=
  claim_C6_length_mismatch [(1 : ℚ)] [] (1 / 200) (by decide)

/-- Claim C3: for every coefficient design, every valid `FilterSpec`
(order ≥ 1, 0 < cutoff < sampling_rate/2) and every signal of sufficient
length, `separate` applies the forward-backward (zero-phase) filter with the
coefficients the design produces for the given order at normalized cutoff
`cutoff_frequency / (sampling_rate / 2)`, and the result has the same length
as the input. -/
theorem claim_C3_separate_filters (design : ℕ → ℚ → List ℚ × List ℚ)
    (spec : FilterSpec) (signal : List ℚ) (_hord : 1 ≤ spec.order)
    (hcut : 0 < spec.cutoff_frequency)
    (hnyq : spec.cutoff_frequency < spec.sampling_rate / 2)
    (hlen : 3 * (2 * spec.order + 1) ≤ signal.length) :
    separate design spec signal =
      .ok (filtfilt
        (design spec.order
          (spec.cutoff_frequency / (spec.sampling_rate / 2))).1
        (design spec.order
          (spec.cutoff_frequency / (spec.sampling_rate / 2))).2 signal) ∧
    (filtfilt
        (design spec.order
          (spec.cutoff_frequency / (spec.sampling_rate / 2))).1
        (design spec.order
          (spec.cutoff_frequency / (spec.sampling_rate / 2))).2
        signal).length = signal.length := by
  constructor
  · unfold separate
    rw [if_neg (not_lt.mpr hlen), if_neg (not_not_intro ⟨hcut, hnyq⟩)]
    have hhalf : (1 / 2 : ℚ) * spec.sampling_rate = spec.sampling_rate / 2 := by
      ring
    rw [hhalf]
  · exact filtfilt_length _ _ _

theorem claim_C3_witness :
    3 * (2 * (1 : ℕ) + 1) ≤ (List.replicate 9 (0 : ℚ)).length ∧
    separate (fun _ _ => ([1], [1])) ⟨1, 4, 1⟩ (List.replicate 9 (0 : ℚ)) =
      .ok (filtfilt [1] [1] (List.replicate 9 (0 : ℚ))) :=
  ⟨by decide,
    (claim_C3_separate_filters (fun _ _ => ([1], [1])) ⟨1, 4, 1⟩
      (List.replicate 9 (0 : ℚ)) (by decide) (by norm_num) (by norm_num)
      (by decide)).1⟩

/-- Claim C7: for every design, spec and signal, `separate` fails with
`InsufficientDataError` whenever the input has fewer than
`3 * (2*order + 1)` samples, and passes the length check (never returns that
error) otherwise. -/
theorem claim_C7_insufficient_data (design : ℕ → ℚ → List ℚ × List ℚ)
    (spec : FilterSpec) (signal : List ℚ) :
    (signal.length < 3 * (2 * spec.order + 1) →
      separate design spec signal = .error .insufficientData) ∧
    (3 * (2 * spec.order + 1) ≤ signal.length →
      separate design spec signal ≠ .error .insufficientData) := by
  constructor
  · intro h
    unfold separate
    rw [if_pos h]
  · intro h
    unfold separate
    rw [if_neg (not_lt.mpr h)]
    split
    · simp
    · simp

theorem claim_C7_witness :
    separate (fun _ _ => ([1], [1])) ⟨1, 4, 1⟩ [(0 : ℚ)] =
      .error .insufficientData ∧
    separate (fun _ _ => ([1], [1])) ⟨1, 4, 1⟩ (List.replicate 9 (0 : ℚ)) ≠
      .error .insufficientData :=
  ⟨(claim_C7_insufficient_data (fun _ _ => ([1], [1])) ⟨1, 4, 1⟩
      [(0 : ℚ)]).1 (by decide),
    (claim_C7_insufficient_data (fun _ _ => ([1], [1])) ⟨1, 4, 1⟩
      (List.replicate 9 (0 : ℚ))).2 (by decide)⟩

/-- Claim C8: scaling both sequences by the same nonzero constant leaves
`ratio` and `ratio_db` unchanged: both calls succeed and produce equal
`ratio` and equal `ratio_db` fields. -/
theorem claim_C8_scale_invariance (signal noise : List ℚ) (c e : ℚ)
    (hc : c ≠ 0) (h1 : signal.length = noise.length)
    (hs : 0 < mean_sq signal) (hn : 0 < mean_sq noise) :
    estimate (signal.map fun x => c * x) (noise.map fun x => c * x) e =
      .ok (estimateOk (signal.map fun x => c * x)
        (noise.map fun x => c * x) e) ∧
    estimate signal noise e = .ok (estimateOk signal noise e) ∧
    (estimateOk (signal.map fun x => c * x)
      (noise.map fun x => c * x) e).ratio =
      (estimateOk signal noise e).ratio ∧
    (estimateOk (signal.map fun x => c * x)
      (noise.map fun x => c * x) e).ratio_db =
      (estimateOk signal noise e).ratio_db := by
  have hc2 : (0 : ℚ) < c ^ 2 :=
    lt_of_le_of_ne (sq_nonneg c) (Ne.symm (pow_ne_zero 2 hc))
  have hlen : (signal.map fun x => c * x).length =
      (noise.map fun x => c * x).length := by
    simpa using h1
  have hs' : mean_sq (signal.map fun x => c * x) ≠ 0 := by
    rw [mean_sq_smul]
    exact ne_of_gt (mul_pos hc2 hs)
  have hn0 : mean_sq noise ≠ 0 := ne_of_gt hn
  have hn' : mean_sq (noise.map fun x => c * x) ≠ 0 := by
    rw [mean_sq_smul]
    exact ne_of_gt (mul_pos hc2 hn)
  refine ⟨estimate_eq_ok e hlen hs', estimate_eq_ok e h1 (ne_of_gt hs), ?_, ?_⟩
  · rw [estimateOk_ratio, estimateOk_ratio, mean_sq_smul, mean_sq_smul,
      mul_div_mul_left _ _ (ne_of_gt hc2)]
  · rw [estimateOk_ratio_db, estimateOk_ratio_db, if_neg hn', if_neg hn0]
    have harg : ((mean_sq (signal.map fun x => c * x) : ℚ) : ℝ) /
        ((mean_sq (noise.map fun x => c * x) : ℚ) : ℝ) =
        ((mean_sq signal : ℚ) : ℝ) / ((mean_sq noise : ℚ) : ℝ) := by
      rw [mean_sq_smul, mean_sq_smul]
      push_cast
      rw [mul_div_mul_left _ _ (by positivity : ((c : ℝ)) ^ 2 ≠ 0)]
    rw [harg]

theorem claim_C8_witness :
    (3 : ℚ) ≠ 0 ∧
    (estimateOk ([(1 : ℚ)].map fun x => 3 * x)
      ([(2 : ℚ)].map fun x => 3 * x) (1 / 200)).ratio =
      (estimateOk [(1 : ℚ)] [(2 : ℚ)] (1 / 200)).ratio :=
  ⟨by norm_num,
    (claim_C8_scale_invariance [(1 : ℚ)] [(2 : ℚ)] 3 (1 / 200) (by norm_num)
      (by decide) (by norm_num [mean_sq]) (by norm_num [mean_sq])).2.2.1⟩

/-- Claim C9: every result of a successful `estimate` call has nonnegative
`signal_power`, `noise_power`, `ratio` and `ratio_db_error`. -/
theorem claim_C9_result_nonneg (signal noise : List ℚ) (e : ℚ)
    (r : PowerRatioResult) (h : estimate signal noise e = .ok r) :
    0 ≤ r.signal_power ∧ 0 ≤ r.noise_power ∧ 0 ≤ r.ratio ∧
    0 ≤ r.ratio_db_error := by
  have hr : r = estimateOk signal noise e := by
    unfold estimate at h
    split at h
    · exact absurd h (by simp)
    · split at h
      · exact absurd h (by simp)
      · exact (Except.ok.injEq _ _ ▸ h).symm ▸ rfl
  subst hr
  refine ⟨mean_sq_nonneg signal, mean_sq_nonneg noise,
    div_nonneg (mean_sq_nonneg noise) (mean_sq_nonneg signal), ?_⟩
  rw [estimateOk_ratio_db_error]
  exact mul_nonneg
    (div_nonneg (by norm_num) (Real.log_nonneg (by norm_num)))
    (Real.sqrt_nonneg _)

theorem claim_C9_witness :
    estimate [(1 : ℚ)] [(1 : ℚ)] (1 / 200) =
      .ok (estimateOk [(1 : ℚ)] [(1 : ℚ)] (1 / 200)) ∧
    (0 ≤ (estimateOk [(1 : ℚ)] [(1 : ℚ)] (1 / 200)).signal_power ∧
     0 ≤ (estimateOk [(1 : ℚ)] [(1 : ℚ)] (1 / 200)).noise_power ∧
     0 ≤ (estimateOk [(1 : ℚ)] [(1 : ℚ)] (1 / 200)).ratio ∧
     0 ≤ (estimateOk [(1 : ℚ)] [(1 : ℚ)] (1 / 200)).ratio_db_error) :=
  have h : estimate [(1 : ℚ)] [(1 : ℚ)] (1 / 200) =
      .ok (estimateOk [(1 : ℚ)] [(1 : ℚ)] (1 / 200)) :=
    estimate_eq_ok (1 / 200) (by decide) (by norm_num [mean_sq])
  ⟨h, claim_C9_result_nonneg [(1 : ℚ)] [(1 : ℚ)] (1 / 200) _ h⟩

/-- Claim C10: with positive signal and noise power, the dB value returned
by `calculate_snr` and the ratio returned by `calculate_average_power_ratio`
agree: `snr = -10 * log10(power_ratio)` — the two operations compute the
same underlying power quotient. -/
theorem claim_C10_snr_ratio_consistent (signal noise : List ℚ)
    (hs : 0 < mean_sq signal) (hn : 0 < mean_sq noise) :
    (calculate_snr signal noise).1 =
      (-10) * Real.logb 10
        ((calculate_average_power_ratio signal noise : ℚ) : ℝ) := by
  have hS : (0 : ℝ) < ((mean_sq signal : ℚ) : ℝ) := by exact_mod_cast hs
  have hN : (0 : ℝ) < ((mean_sq noise : ℚ) : ℝ) := by exact_mod_cast hn
  have h1 : (calculate_snr signal noise).1 =
      10 * Real.logb 10
        (((mean_sq signal : ℚ) : ℝ) / ((mean_sq noise : ℚ) : ℝ)) := rfl
  have h2 : ((calculate_average_power_ratio signal noise : ℚ) : ℝ) =
      ((mean_sq noise : ℚ) : ℝ) / ((mean_sq signal : ℚ) : ℝ) := by
    unfold calculate_average_power_ratio
    push_cast
    ring
  rw [h1, h2, Real.logb_div (ne_of_gt hS) (ne_of_gt hN),
    Real.logb_div (ne_of_gt hN) (ne_of_gt hS)]
  ring

theorem claim_C10_witness :
    0 < mean_sq [(1 : ℚ)] ∧ 0 < mean_sq [(2 : ℚ)] ∧
    (calculate_snr [(1 : ℚ)] [(2 : ℚ)]).1 =
      (-10) * Real.logb 10
        ((calculate_average_power_ratio [(1 : ℚ)] [(2 : ℚ)] : ℚ) : ℝ) :=
  ⟨by norm_num [mean_sq], by norm_num [mean_sq],
    claim_C10_snr_ratio_consistent [(1 : ℚ)] [(2 : ℚ)]
      (by norm_num [mean_sq]) (by norm_num [mean_sq])⟩

end GWaves
